import Mathlib

/-!
Shallow embedding of hyperinstall (src/src/Hyperinstall.js), the selective
dependency reinstaller: JSON-like JavaScript values, lodash structural
equality, the change detector, the state merge performed at the end of a
run, the content-checksum construction, the local-dependency classifier,
and the install lock discipline.
-/

namespace Hyperinstall

/-- JSON-like JavaScript values.  The `promise` constructor models an
un-awaited Promise object wrapping the value it will eventually resolve to;
a Promise has no own enumerable properties. -/
inductive JSVal where
  | undefined
  | null
  | bool (b : Bool)
  | num (n : Int)
  | str (s : String)
  | arr (elems : List JSVal)
  | obj (fields : List (String × JSVal))
  | promise (value : JSVal)

/-- JavaScript truthiness, as used by `if (!packageState)` and
`if (shrinkwrap && ...)` in `packageNeedsUpdate`. -/
def truthy : JSVal → Bool
  | .undefined => false
  | .null => false
  | .bool b => b
  | .num n => n != 0
  | .str s => s != ""
  | .arr _ => true
  | .obj _ => true
  | .promise _ => true

/-- JavaScript strict equality (`===`/`!==`) between values that originate
from independent `JSON.parse` calls, as in `packageNeedsUpdate` where the
recorded token comes from the state file and the current token from the
config file: primitives compare by value with no coercion, while two
separately parsed objects or arrays are distinct references and are never
strictly equal. -/
def strictEq : JSVal → JSVal → Bool
  | .undefined, .undefined => true
  | .null, .null => true
  | .bool a, .bool b => a == b
  | .num a, .num b => a == b
  | .str a, .str b => a == b
  | _, _ => false

mutual

/-- lodash `isEqual`: deep structural equality over JSON-like values.
Mappings are key-order-independent, sequences are order-sensitive, and
there is no type coercion.  Distinct Promise objects are never equal. -/
def isEqual : JSVal → JSVal → Bool
  | .undefined, .undefined => true
  | .null, .null => true
  | .bool a, .bool b => a == b
  | .num a, .num b => a == b
  | .str a, .str b => a == b
  | .arr xs, .arr ys => isEqualList xs ys
  | .obj fs, .obj gs => isEqualSub fs gs && isEqualSub gs fs
  | _, _ => false
termination_by a b => sizeOf a + sizeOf b

/-- Pointwise structural equality of two arrays. -/
def isEqualList : List JSVal → List JSVal → Bool
  | [], [] => true
  | x :: xs, y :: ys => isEqual x y && isEqualList xs ys
  | _, _ => false
termination_by xs ys => sizeOf xs + sizeOf ys

/-- Every field of the first object occurs in the second with a structurally
equal value.  JSON objects have no duplicate keys, so containment in both
directions is object equality. -/
def isEqualSub : List (String × JSVal) → List (String × JSVal) → Bool
  | [], _ => true
  | (k, v) :: fs, gs => isEqualAt k v gs && isEqualSub fs gs
termination_by fs gs => sizeOf fs + sizeOf gs

/-- The key is present in the field list with a structurally equal value. -/
def isEqualAt : String → JSVal → List (String × JSVal) → Bool
  | _, _, [] => false
  | k, v, (k2, v2) :: gs => if k = k2 then isEqual v v2 else isEqualAt k v gs
termination_by _ v gs => sizeOf v + sizeOf gs

end

/-- First-match lookup in an object's field list; `undefined` when absent or
when the receiver is not an object (property access on a parsed JSON value). -/
def lookupField : List (String × JSVal) → String → JSVal
  | [], _ => .undefined
  | (k, v) :: rest, key => if k = key then v else lookupField rest key

/-- JavaScript property access `v[key]`, also modelling lodash `get`. -/
def jsGet : JSVal → String → JSVal
  | .obj fields, key => lookupField fields key
  | _, _ => .undefined

/-- The field list has an entry with the given key
(`Object.prototype.hasOwnProperty`). -/
def hasKey (fields : List (String × JSVal)) (key : String) : Bool :=
  fields.any (fun kv => kv.1 == key)

/-- `Object.assign({}, a, b)`: the keys of `a` in order with values
overridden by `b` on collision, followed by the keys of `b` not present
in `a`. -/
def objectAssign (a b : List (String × JSVal)) : List (String × JSVal) :=
  a.map (fun kv => (kv.1, (List.lookup kv.1 b).getD kv.2)) ++
    b.filter (fun kv => !hasKey a kv.1)

/-- An object literal spreading a value and then adding explicit fields,
as in `{...packageInstallationState, cacheBreaker}` (Hyperinstall.js lines
149-152): the own enumerable properties of the spread value come first,
then the extra fields.  A Promise (and any other non-object primitive used
here) contributes no own enumerable properties. -/
def jsSpread : JSVal → List (String × JSVal) → JSVal
  | .obj fields, extra => .obj (objectAssign fields extra)
  | _, extra => .obj (objectAssign [] extra)

/-! ### The change detector (`packageNeedsUpdate`, lines 254-272) -/

/-- Lines 255-258 of Hyperinstall.js, the detector's first step:
`let packageState = get(this.state.packages, name);
if (!packageState || packageState.cacheBreaker !== cacheBreaker) return true`.
The comparison is JavaScript strict inequality between the token recorded in
the parsed state file and the token parsed from the config file. -/
def cacheBreakerStepFlags (statePackages : JSVal) (name : String)
    (cacheBreaker : JSVal) : Bool :=
  let packageState := jsGet statePackages name
  !truthy packageState || !strictEq (jsGet packageState "cacheBreaker") cacheBreaker

/-- Lines 254-272 of Hyperinstall.js: the change detector, exactly as
declared with its five parameters `(name, cacheBreaker, deps,
unversionedDepChecksums, shrinkwrap)`; `statePackages` is
`this.state.packages`. -/
def packageNeedsUpdate (statePackages : JSVal) (name : String)
    (cacheBreaker deps unversionedDepChecksums shrinkwrap : JSVal) : Bool :=
  if cacheBreakerStepFlags statePackages name cacheBreaker then
    true
  else
    let packageState := jsGet statePackages name
    let installedShrinkwrap := jsGet packageState "shrinkwrap"
    if truthy shrinkwrap && isEqual shrinkwrap installedShrinkwrap then
      true
    else
      let installedDeps := jsGet packageState "dependencies"
      if !isEqual deps installedDeps then
        true
      else
        !isEqual unversionedDepChecksums
          (jsGet packageState "unversionedDependencyChecksums")

/-- The call at line 133,
`this.packageNeedsUpdate(name, cacheBreaker, packageInstallationState)`:
the five-parameter function receives three arguments, so the composite
installation-state object is bound to the `deps` parameter and the
`unversionedDepChecksums` and `shrinkwrap` parameters are `undefined`. -/
def packageNeedsUpdateAsCalled (statePackages : JSVal) (name : String)
    (cacheBreaker packageInstallationState : JSVal) : Bool :=
  packageNeedsUpdate statePackages name cacheBreaker
    packageInstallationState .undefined .undefined

/-- Lines 115-126 (`readPackageInstallationState`): the composite
fingerprint object built from the three reads. -/
def packageInstallationState (deps unversionedDepChecksums shrinkwrap : JSVal) :
    JSVal :=
  .obj [("dependencies", deps),
        ("unversionedDependencyChecksums", unversionedDepChecksums),
        ("shrinkwrap", shrinkwrap)]

/-! ### Recorded entries and the end-of-run state merge -/

/-- Lines 149-152 (`updatePackageAsync`): after a successful install the
entry recorded in `this.updatedPackages` spreads the installation state and
adds the package's token: `{...packageInstallationState, cacheBreaker}`. -/
def updatedPackageEntry (installationState cacheBreaker : JSVal) : JSVal :=
  jsSpread installationState [("cacheBreaker", cacheBreaker)]

/-- Lines 48-52 (`installAsync`, full-reset branch): when the persisted
global `cacheBreaker` differs from `CACHE_BREAKER`, every declared package
is installed.  Line 50 reads
`let packageInstallationState = this.readPackageInstallationState(name);`
with no `await`, so the value spread into the recorded entry is the pending
Promise, not the fingerprint it resolves to. -/
def fullResetUpdatedPackages (packages : List (String × JSVal))
    (freshInstallationState : String → JSVal) : List (String × JSVal) :=
  packages.map (fun p =>
    (p.1, updatedPackageEntry (.promise (freshInstallationState p.1)) p.2))

/-- Lines 69-77 (`installAsync`): the end-of-run merge.
`state.packages = Object.assign({}, state.packages, this.updatedPackages)`
followed by deleting every key for which `!packages.hasOwnProperty(name)`,
where `packages` is the declared config mapping. -/
def finalStatePackages (oldPackages updatedPackages
    declaredPackages : List (String × JSVal)) : List (String × JSVal) :=
  (objectAssign oldPackages updatedPackages).filter
    (fun kv => hasKey declaredPackages kv.1)

/-! ### The reset operation (`cleanAsync`, lines 274-277) -/

/-- A filesystem error code. -/
inductive FSError where
  | ENOENT
deriving DecidableEq

/-- `fs.unlink`: removes the file when it exists and fails with `ENOENT`
when it does not. -/
def unlink (fileExists : Bool) : Except FSError Unit :=
  if fileExists then Except.ok () else Except.error FSError.ENOENT

/-- Lines 274-277 (`cleanAsync`): `await fs.promise.unlink(stateFilename)`
with no handling of `ENOENT`, unlike the `catch` blocks in
`readInstallationStateAsync`, `readPackageListAsync` and
`readShrinkwrapAsync`. -/
def cleanAsync (stateFileExists : Bool) : Except FSError Unit :=
  unlink stateFileExists

/-- Lines 80-92 (`readInstallationStateAsync`), for contrast: a missing
state file is recovered as the empty object. -/
def readInstallationStateAsync (stateFile : Option JSVal) : JSVal :=
  match stateFile with
  | none => .obj []
  | some contents => contents

/-- Lines 161-173 (`readShrinkwrapAsync`): a missing lockfile (`ENOENT`)
is recovered as `undefined`; a present lockfile is `JSON.parse`d, so a
present file can still yield a falsy value such as `null`. -/
def readShrinkwrapAsync (shrinkwrapFile : Option JSVal) : JSVal :=
  match shrinkwrapFile with
  | none => .undefined
  | some parsed => parsed

/-! ### Content checksums (lines 218-252) -/

/-- Boolean comparison used to sort the individual digests
(lodash `sortBy` over the values of the checksum object). -/
def strLe (a b : String) : Bool := decide (a ≤ b)

/-- Lines 247-252 (`readFileChecksumAsync`): hash the raw bytes of one
file.  The digest algorithm is the external `crypto` module; it is the same
algorithm for files and for the aggregate, so it is one parameter `hash`. -/
def readFileChecksumAsync (hash : String → String) (contents : String) : String :=
  hash contents

/-- Lines 218-245 (`readPackageChecksumAsync`): hash every included file
individually, sort the resulting digests (`sortBy(fileChecksums)` iterates
the values of the object keyed by relative path), concatenate them and hash
again.  `files` lists the included files as `(relative path, contents)` in
discovery order; the order in which the individual hash promises complete
cannot influence the keyed object they are collected into. -/
def readPackageChecksumAsync (hash : String → String)
    (files : List (String × String)) : String :=
  let fileChecksums := files.map (fun f => (f.1, readFileChecksumAsync hash f.2))
  hash (String.join ((fileChecksums.map Prod.snd).mergeSort strLe))

/-! ### Local-dependency classification (`filterLocalDeps`, lines 197-216) -/

/-- The result of the external `npm-package-arg` parser: its `type` and
`spec` fields. -/
structure NpaDescriptor where
  type : String
  spec : String

/-- The process-wide working directory together with the trace of
`process.chdir` calls made so far. -/
structure CwdState where
  cwd : String
  chdirCalls : List String

/-- `process.chdir(dir)`: mutates the process-wide working directory and is
appended to the trace. -/
def chdir (dir : String) (s : CwdState) : CwdState :=
  { cwd := dir, chdirCalls := s.chdirCalls ++ [dir] }

/-- `path.resolve(base, p)` for the calls arising here: the config's
package names are workspace-relative directory paths, so resolution joins
them to the base. -/
def pathResolve (base p : String) : String :=
  base ++ "/" ++ p

/-- Lines 197-216 (`filterLocalDeps`): saves the current working directory,
`process.chdir`s into the package directory because `npm-package-arg` (the
parameter `npa`, a function of the process working directory and the
`dep@version` string) resolves local paths against it, keeps the
dependencies whose descriptor type is `local`, and restores the original
working directory in a `finally` block.  Explicit state passing over
`CwdState` models the global working directory. -/
def filterLocalDeps (npa : String → String → NpaDescriptor)
    (root name : String) (deps : List (String × String)) (s0 : CwdState) :
    List (String × String) × CwdState :=
  let originalCwd := s0.cwd
  let packagePath := pathResolve root name
  let s1 := chdir packagePath s0
  let localDeps := deps.filterMap (fun d =>
    let descriptor := npa s1.cwd (d.1 ++ "@" ++ d.2)
    if descriptor.type == "local" then some (d.1, descriptor.spec) else none)
  (localDeps, chdir originalCwd s1)

/-! ### The install lock (lines 33 and 138-153)

`updatePackageAsync` brackets every external install invocation with
`await this.installLock.acquireAsync()` and a `finally`-guaranteed
`this.installLock.release()`.  The interleaving semantics is a transition
system over the phases of the concurrently launched per-package tasks. -/

/-- Phase of one package's install task: awaiting the lock, holding the
lock while the external install subprocess runs, finished successfully, or
finished by throwing (`execNpmInstallAsync` rejected). -/
inductive Phase where
  | waiting
  | installing
  | done
  | failed
deriving DecidableEq

/-- System state: whether the `AwaitLock` is held, and the phases of the
install tasks. -/
structure Sys where
  lockHeld : Bool
  tasks : List Phase

/-- One scheduler step.  `acquire` completes `acquireAsync` for a waiting
task when the lock is free; `finishOk` and `finishFail` end the external
install and run the `finally` block, releasing the lock on the success and
the failure path alike. -/
inductive Step : Sys → Sys → Prop
  | acquire (l1 l2 : List Phase) :
      Step ⟨false, l1 ++ Phase.waiting :: l2⟩ ⟨true, l1 ++ Phase.installing :: l2⟩
  | finishOk (l1 l2 : List Phase) :
      Step ⟨true, l1 ++ Phase.installing :: l2⟩ ⟨false, l1 ++ Phase.done :: l2⟩
  | finishFail (l1 l2 : List Phase) :
      Step ⟨true, l1 ++ Phase.installing :: l2⟩ ⟨false, l1 ++ Phase.failed :: l2⟩

/-- States reachable in a run that starts with any number of packages
needing install, the lock free. -/
inductive Reachable : Sys → Prop
  | init (n : Nat) : Reachable ⟨false, List.replicate n Phase.waiting⟩
  | step {s t : Sys} : Reachable s → Step s t → Reachable t

/-- Number of tasks whose external install subprocess is currently
running. -/
def installingCount : List Phase → Nat
  | [] => 0
  | Phase.installing :: rest => installingCount rest + 1
  | _ :: rest => installingCount rest

end Hyperinstall

namespace Hyperinstall

/-- C6: after the end-of-run merge, the persisted `packages` mapping has an
entry only for currently declared packages; anything else — in particular a
package present in the prior state but no longer declared — is pruned, with
or without installs this run (`updatedPackages` may be empty). -/
theorem C6_pruning (oldPackages updatedPackages declaredPackages :
    List (String × JSVal)) (name : String)
    (h : name ∈ (finalStatePackages oldPackages updatedPackages
      declaredPackages).map Prod.fst) :
    name ∈ declaredPackages.map Prod.fst := by
  simp only [finalStatePackages, List.mem_map, List.mem_filter] at h
  obtain ⟨kv, ⟨_, hkey⟩, rfl⟩ := h
  simp only [hasKey, List.any_eq_true, beq_iff_eq] at hkey
  obtain ⟨p, hp, hpk⟩ := hkey
  exact List.mem_map.mpr ⟨p, hp, hpk⟩

/-- Witness for C6 at a concrete state: package `b` was recorded but is no
longer declared and disappears; the still-declared `a` stays. -/
theorem C6_pruning_witness :
    "a" ∈ (finalStatePackages
        [("a", JSVal.num 2), ("b", JSVal.num 3)] []
        [("a", JSVal.num 1)]).map Prod.fst ∧
    "a" ∈ [("a", JSVal.num 1)].map Prod.fst := by
  refine ⟨?_, ?_⟩
  · show "a" ∈ ["a"]
    simp
  · exact C6_pruning [("a", JSVal.num 2), ("b", JSVal.num 3)] []
      [("a", JSVal.num 1)] "a" (by show "a" ∈ ["a"]; simp)

/-- C8: the source of `cleanAsync` calls `fs.unlink` with no handling of
`ENOENT`, so invoking the reset operation when the state file does not
exist surfaces the error instead of completing as a no-op. -/
theorem C8_clean_missing_state_errors :
    cleanAsync false = Except.error FSError.ENOENT := rfl

/-- C9 counterexample: even for an empty dependency map the classifier
mutates the process-wide working directory twice — into the package
directory and back — so its `process.chdir` trace is not empty. -/
theorem C9_counterexample :
    (filterLocalDeps (fun _ d => ⟨"registry", d⟩) "/workspace" "pkgA" []
        ⟨"/original", []⟩).2.chdirCalls = ["/workspace/pkgA", "/original"] ∧
    (filterLocalDeps (fun _ d => ⟨"registry", d⟩) "/workspace" "pkgA" []
        ⟨"/original", []⟩).2.chdirCalls ≠ [] := by
  refine ⟨rfl, ?_⟩
  intro h
  simp [filterLocalDeps, chdir] at h

/-- C9 amended: the classifier does temporarily mutate the process-wide
working directory — it chdirs into the package directory so the specifier
parser resolves against it and chdirs back afterwards — but the returned
mapping is independent of the initial working directory, and the working
directory is restored on exit. -/
theorem C9_classification_cwd (npa : String → String → NpaDescriptor)
    (root name : String) (deps : List (String × String)) (s t : CwdState) :
    (filterLocalDeps npa root name deps s).1
      = (filterLocalDeps npa root name deps t).1 ∧
    (filterLocalDeps npa root name deps s).2.cwd = s.cwd ∧
    (filterLocalDeps npa root name deps s).2.chdirCalls
      = s.chdirCalls ++ [pathResolve root name, s.cwd] := by
  refine ⟨rfl, rfl, ?_⟩
  simp [filterLocalDeps, chdir]

/-- C3: on the full-reset path the fingerprint promise is spread without
being awaited, so the recorded entry for each declared package is just
`{cacheBreaker}`: the freshly computed fingerprint — here with a nonempty
dependency mapping — is dropped, its `dependencies` field reading back
`undefined` instead of the manifest mapping. -/
theorem C3_full_reset_drops_fingerprint :
    fullResetUpdatedPackages [("pkgA", JSVal.num 1)]
        (fun _ => packageInstallationState
          (JSVal.obj [("lodash", JSVal.str "^4.0.0")]) (JSVal.obj []) JSVal.undefined)
      = [("pkgA", JSVal.obj [("cacheBreaker", JSVal.num 1)])] ∧
    jsGet (JSVal.obj [("cacheBreaker", JSVal.num 1)]) "dependencies"
      = JSVal.undefined ∧
    jsGet (packageInstallationState
        (JSVal.obj [("lodash", JSVal.str "^4.0.0")]) (JSVal.obj []) JSVal.undefined)
        "dependencies"
      ≠ JSVal.undefined := by
  refine ⟨rfl, rfl, ?_⟩
  intro h
  exact JSVal.noConfusion h

/-- C4 counterexample: an array token `[1]` recorded in the state file is
structurally equal to the currently declared `[1]`, and a fingerprint is
recorded, yet the detector's first step flags the package, because
`!==` compares separately parsed arrays by reference. -/
theorem C4_counterexample :
    isEqual (JSVal.arr [JSVal.num 1]) (JSVal.arr [JSVal.num 1]) = true ∧
    truthy (jsGet (JSVal.obj [("pkgA", JSVal.obj
      [("cacheBreaker", JSVal.arr [JSVal.num 1])])]) "pkgA") = true ∧
    cacheBreakerStepFlags (JSVal.obj [("pkgA", JSVal.obj
      [("cacheBreaker", JSVal.arr [JSVal.num 1])])]) "pkgA"
      (JSVal.arr [JSVal.num 1]) = true := by
  refine ⟨?_, rfl, rfl⟩
  simp [isEqual, isEqualList]

/-- C4 amended: the recorded cache-breaker is compared to the current one
with JavaScript strict equality, not structural equality: the first step
does not flag the package exactly when a fingerprint is recorded and the
tokens are strictly equal — value equality for primitive tokens, while
separately parsed object or array tokens are distinct references and always
flag, even when structurally equal.  Strict equality still implies
structural equality, so a package the step passes has structurally equal
tokens; the converse fails. -/
theorem C4_strict_equality (statePackages : JSVal) (name : String)
    (cacheBreaker a b : JSVal) (hab : strictEq a b = true) :
    isEqual a b = true ∧
    (cacheBreakerStepFlags statePackages name cacheBreaker = false ↔
      truthy (jsGet statePackages name) = true ∧
      strictEq (jsGet (jsGet statePackages name) "cacheBreaker") cacheBreaker
        = true) := by
  constructor
  · cases a <;> cases b <;> simp_all [strictEq, isEqual]
  · simp [cacheBreakerStepFlags]

/-- Witness for C4 at concrete primitive tokens `1`. -/
theorem C4_strict_equality_witness :
    strictEq (JSVal.num 1) (JSVal.num 1) = true ∧
    (isEqual (JSVal.num 1) (JSVal.num 1) = true ∧
      (cacheBreakerStepFlags
          (JSVal.obj [("pkgA", JSVal.obj [("cacheBreaker", JSVal.num 1)])])
          "pkgA" (JSVal.num 1) = false ↔
        truthy (jsGet (JSVal.obj [("pkgA", JSVal.obj
            [("cacheBreaker", JSVal.num 1)])]) "pkgA") = true ∧
        strictEq (jsGet (jsGet (JSVal.obj [("pkgA", JSVal.obj
            [("cacheBreaker", JSVal.num 1)])]) "pkgA") "cacheBreaker")
          (JSVal.num 1) = true)) :=
  ⟨rfl, C4_strict_equality
    (JSVal.obj [("pkgA", JSVal.obj [("cacheBreaker", JSVal.num 1)])])
    "pkgA" (JSVal.num 1) (JSVal.num 1) (JSVal.num 1) rfl⟩

/-- C2 counterexample: a lockfile file containing `null` is present and
parses to `null`, which is structurally equal to the recorded `null`
lockfile; the fingerprint is recorded and the token passes the first step,
yet with unchanged dependencies and checksums the detector returns `false`,
because line 261 tests the parsed lockfile for truthiness, not presence,
and `null` is falsy. -/
theorem C2_counterexample :
    readShrinkwrapAsync (some JSVal.null) = JSVal.null ∧
    isEqual JSVal.null
      (jsGet (jsGet (JSVal.obj [("pkgA", JSVal.obj
        [("cacheBreaker", JSVal.num 1),
         ("shrinkwrap", JSVal.null),
         ("dependencies", JSVal.obj [("lodash", JSVal.str "^4.0.0")]),
         ("unversionedDependencyChecksums", JSVal.obj [])])]) "pkgA")
        "shrinkwrap") = true ∧
    cacheBreakerStepFlags (JSVal.obj [("pkgA", JSVal.obj
        [("cacheBreaker", JSVal.num 1),
         ("shrinkwrap", JSVal.null),
         ("dependencies", JSVal.obj [("lodash", JSVal.str "^4.0.0")]),
         ("unversionedDependencyChecksums", JSVal.obj [])])])
      "pkgA" (JSVal.num 1) = false ∧
    packageNeedsUpdate (JSVal.obj [("pkgA", JSVal.obj
        [("cacheBreaker", JSVal.num 1),
         ("shrinkwrap", JSVal.null),
         ("dependencies", JSVal.obj [("lodash", JSVal.str "^4.0.0")]),
         ("unversionedDependencyChecksums", JSVal.obj [])])])
      "pkgA" (JSVal.num 1) (JSVal.obj [("lodash", JSVal.str "^4.0.0")])
      (JSVal.obj []) JSVal.null = false := by
  refine ⟨rfl, ?_, rfl, ?_⟩
  · simp [jsGet, lookupField, isEqual]
  · simp [packageNeedsUpdate, cacheBreakerStepFlags, jsGet, lookupField,
      truthy, strictEq, isEqual, isEqualSub, isEqualAt]

/-- C2 amended: in the change detector, when a fingerprint is recorded and
the recorded cache-breaker passes the first step, a current lockfile whose
parsed value is truthy — presence alone does not suffice, since line 261
tests `if (shrinkwrap && ...)` — and structurally equal to the recorded
one makes the detector return `true` (lines 260-263 of Hyperinstall.js). -/
theorem C2_equal_lockfile_flags_update (statePackages : JSVal) (name : String)
    (cacheBreaker deps unversionedDepChecksums shrinkwrap : JSVal)
    (hstep : cacheBreakerStepFlags statePackages name cacheBreaker = false)
    (hpresent : truthy shrinkwrap = true)
    (heq : isEqual shrinkwrap (jsGet (jsGet statePackages name) "shrinkwrap")
      = true) :
    packageNeedsUpdate statePackages name cacheBreaker deps
      unversionedDepChecksums shrinkwrap = true := by
  simp [packageNeedsUpdate, hstep, hpresent, heq]

/-- Witness for C2 at a concrete state whose recorded lockfile equals the
current one. -/
theorem C2_equal_lockfile_flags_update_witness :
    cacheBreakerStepFlags
        (JSVal.obj [("pkgA", JSVal.obj
          [("cacheBreaker", JSVal.num 1),
           ("shrinkwrap", JSVal.obj [("v", JSVal.str "1.0.0")])])])
        "pkgA" (JSVal.num 1) = false ∧
    truthy (JSVal.obj [("v", JSVal.str "1.0.0")]) = true ∧
    isEqual (JSVal.obj [("v", JSVal.str "1.0.0")])
      (jsGet (jsGet (JSVal.obj [("pkgA", JSVal.obj
          [("cacheBreaker", JSVal.num 1),
           ("shrinkwrap", JSVal.obj [("v", JSVal.str "1.0.0")])])]) "pkgA")
        "shrinkwrap") = true ∧
    packageNeedsUpdate
        (JSVal.obj [("pkgA", JSVal.obj
          [("cacheBreaker", JSVal.num 1),
           ("shrinkwrap", JSVal.obj [("v", JSVal.str "1.0.0")])])])
        "pkgA" (JSVal.num 1) (JSVal.obj []) (JSVal.obj [])
        (JSVal.obj [("v", JSVal.str "1.0.0")]) = true := by
  refine ⟨rfl, rfl, ?_, ?_⟩
  · simp [jsGet, lookupField, isEqual, isEqualSub, isEqualAt]
  · exact C2_equal_lockfile_flags_update _ "pkgA" _ (JSVal.obj []) (JSVal.obj [])
      _ rfl rfl (by simp [jsGet, lookupField, isEqual, isEqualSub, isEqualAt])

end Hyperinstall

namespace Hyperinstall

/-- Dependency mapping of the example package for the idempotence scenario:
`{"lodash": "^4.0.0"}`, no local dependencies, no lockfile. -/
def exampleDeps : JSVal := JSVal.obj [("lodash", JSVal.str "^4.0.0")]

/-- The `packages` mapping of the state file after the first successful run
installed `pkgA` with token `1` and recorded its fingerprint
(`JSON.stringify` drops the `shrinkwrap: undefined` field). -/
def exampleRecordedPackages : JSVal :=
  JSVal.obj [("pkgA", JSVal.obj
    [("dependencies", exampleDeps),
     ("unversionedDependencyChecksums", JSVal.obj []),
     ("cacheBreaker", JSVal.num 1)])]

/-- The composite installation state recomputed on the unchanged second
run: identical manifest, no local-dependency checksums, no lockfile. -/
def exampleFreshState : JSVal :=
  packageInstallationState exampleDeps (JSVal.obj []) JSVal.undefined

/-- C1: on a second run with unchanged inputs the change detector should
return `false`, but it returns `true`.  The fresh fingerprint is
field-for-field structurally equal to the recorded one and the token
passes the first step, yet the call
`this.packageNeedsUpdate(name, cacheBreaker, packageInstallationState)`
binds the composite object to the five-parameter function's `deps`
parameter, so step three compares the whole composite against the recorded
`dependencies` mapping and flags the package. -/
theorem C1_unchanged_second_run_still_flags :
    isEqual (jsGet exampleFreshState "dependencies")
      (jsGet (jsGet exampleRecordedPackages "pkgA") "dependencies") = true ∧
    isEqual (jsGet exampleFreshState "unversionedDependencyChecksums")
      (jsGet (jsGet exampleRecordedPackages "pkgA")
        "unversionedDependencyChecksums") = true ∧
    truthy (jsGet exampleFreshState "shrinkwrap") = false ∧
    cacheBreakerStepFlags exampleRecordedPackages "pkgA" (JSVal.num 1)
      = false ∧
    packageNeedsUpdateAsCalled exampleRecordedPackages "pkgA" (JSVal.num 1)
      exampleFreshState = true := by
  refine ⟨?_, ?_, rfl, rfl, ?_⟩
  · simp [exampleFreshState, exampleRecordedPackages, exampleDeps,
      packageInstallationState, jsGet, lookupField, isEqual, isEqualSub,
      isEqualAt]
  · simp [exampleFreshState, exampleRecordedPackages, packageInstallationState,
      jsGet, lookupField, isEqual, isEqualSub, isEqualAt]
  · simp [packageNeedsUpdateAsCalled, packageNeedsUpdate,
      cacheBreakerStepFlags, exampleFreshState, exampleRecordedPackages,
      exampleDeps, packageInstallationState, jsGet, lookupField, truthy,
      strictEq, isEqual, isEqualSub, isEqualAt]

set_option linter.unnecessarySeqFocus false in
/-- Appending task lists adds their counts of running installs. -/
theorem installingCount_append (l1 l2 : List Phase) :
    installingCount (l1 ++ l2) = installingCount l1 + installingCount l2 := by
  induction l1 with
  | nil => simp [installingCount]
  | cons a l ih => cases a <;> simp [installingCount, ih] <;> omega

/-- In every reachable state the number of running install subprocesses is
`1` when the lock is held and `0` when it is free: the lock is taken on
entry and given back by the `finally` block on both the success and the
failure exit. -/
theorem reachable_installingCount (s : Sys) (h : Reachable s) :
    installingCount s.tasks = cond s.lockHeld 1 0 := by
  induction h with
  | init n =>
    show installingCount (List.replicate n Phase.waiting) = 0
    induction n with
    | zero => rfl
    | succ m ih => simpa [List.replicate_succ, installingCount] using ih
  | step _ hstep ih =>
    cases hstep with
    | acquire l1 l2 =>
      have ih2 : installingCount (l1 ++ Phase.waiting :: l2) = 0 := ih
      rw [installingCount_append] at ih2
      show installingCount (l1 ++ Phase.installing :: l2) = 1
      rw [installingCount_append]
      simp only [installingCount] at ih2 ⊢
      omega
    | finishOk l1 l2 =>
      have ih2 : installingCount (l1 ++ Phase.installing :: l2) = 1 := ih
      rw [installingCount_append] at ih2
      show installingCount (l1 ++ Phase.done :: l2) = 0
      rw [installingCount_append]
      simp only [installingCount] at ih2 ⊢
      omega
    | finishFail l1 l2 =>
      have ih2 : installingCount (l1 ++ Phase.installing :: l2) = 1 := ih
      rw [installingCount_append] at ih2
      show installingCount (l1 ++ Phase.failed :: l2) = 0
      rw [installingCount_append]
      simp only [installingCount] at ih2 ⊢
      omega

/-- C5: install mutual exclusion.  In every state reachable from a run
start — any number of packages detected as needing install, lock free — at
most one external install subprocess is active, so no two install
invocations' active intervals overlap; the lock is released on the failure
exit just as on the success exit (`Step.finishFail`). -/
theorem C5_install_mutual_exclusion (s : Sys) (h : Reachable s) :
    installingCount s.tasks ≤ 1 := by
  rw [reachable_installingCount s h]
  cases s.lockHeld <;> decide

/-- Witness for C5: with two packages needing install, the state in which
the first has acquired the lock and is installing while the second waits is
reachable, and at most one install is active there. -/
theorem C5_install_mutual_exclusion_witness :
    Reachable ⟨true, [Phase.installing, Phase.waiting]⟩ ∧
    installingCount [Phase.installing, Phase.waiting] ≤ 1 :=
  have h : Reachable ⟨true, [Phase.installing, Phase.waiting]⟩ :=
    Reachable.step (Reachable.init 2) (Step.acquire [] [Phase.waiting])
  ⟨h, C5_install_mutual_exclusion ⟨true, [Phase.installing, Phase.waiting]⟩ h⟩

/-- Sorting with `strLe` maps permuted inputs to the same output: the
sorted lists are permutations of each other and both sorted, and `≤` on
strings is antisymmetric. -/
theorem mergeSort_strLe_perm_congr (l1 l2 : List String)
    (h : List.Perm l1 l2) :
    l1.mergeSort strLe = l2.mergeSort strLe := by
  haveI : IsAntisymm String (fun a b => strLe a b = true) :=
    ⟨fun a b hab hba =>
      le_antisymm (of_decide_eq_true hab) (of_decide_eq_true hba)⟩
  have htrans : ∀ a b c : String, strLe a b → strLe b c → strLe a c := by
    intro a b c hab hbc
    exact decide_eq_true
      (le_trans (of_decide_eq_true hab) (of_decide_eq_true hbc))
  have htotal : ∀ a b : String, strLe a b || strLe b a := by
    intro a b
    rcases le_total a b with hle | hle
    · simp [strLe, hle]
    · simp [strLe, hle]
  exact List.eq_of_perm_of_sorted
    (((l1.mergeSort_perm strLe).trans h).trans (l2.mergeSort_perm strLe).symm)
    (List.sorted_mergeSort htrans htotal l1)
    (List.sorted_mergeSort htrans htotal l2)

/-- C7: the aggregate content checksum is insensitive to the order in which
the directory's files are discovered (and hence to the order their
individual hashes complete, which cannot affect the keyed checksum object):
any permutation of the file list yields the identical digest, for every
digest function. -/
theorem C7_checksum_order_independent (hash : String → String)
    (files1 files2 : List (String × String)) (h : List.Perm files1 files2) :
    readPackageChecksumAsync hash files1
      = readPackageChecksumAsync hash files2 := by
  simp only [readPackageChecksumAsync, readFileChecksumAsync, List.map_map]
  exact congrArg hash (congrArg String.join
    (mergeSort_strLe_perm_congr _ _ (h.map _)))

/-- Witness for C7: two discovery orders of the same two files. -/
theorem C7_checksum_order_independent_witness :
    List.Perm [("a.js", "alpha"), ("b.js", "beta")]
      [("b.js", "beta"), ("a.js", "alpha")] ∧
    readPackageChecksumAsync (fun s => s) [("a.js", "alpha"), ("b.js", "beta")]
      = readPackageChecksumAsync (fun s => s)
          [("b.js", "beta"), ("a.js", "alpha")] :=
  ⟨List.Perm.swap _ _ _,
    C7_checksum_order_independent (fun s => s) _ _ (List.Perm.swap _ _ _)⟩

/-- C10: the aggregate checksum ignores file names and paths: renaming a
file without changing its contents, or exchanging the contents of two
files, yields the same digest, because only the multiset of per-file
digests enters the sorted aggregate hash. -/
theorem C10_checksum_ignores_paths (hash : String → String)
    (p1 p2 pa pb c ca cb : String) (rest : List (String × String)) :
    readPackageChecksumAsync hash ((p1, c) :: rest)
      = readPackageChecksumAsync hash ((p2, c) :: rest) ∧
    readPackageChecksumAsync hash ((pa, ca) :: (pb, cb) :: rest)
      = readPackageChecksumAsync hash ((pa, cb) :: (pb, ca) :: rest) := by
  constructor
  · rfl
  · simp only [readPackageChecksumAsync, readFileChecksumAsync, List.map_map,
      List.map_cons]
    exact congrArg hash (congrArg String.join
      (mergeSort_strLe_perm_congr _ _ (List.Perm.swap _ _ _)))

end Hyperinstall
